import Mathlib

/-!
Verification development for the RAG demo repository.

The Python modules `pdf_processor.py`, `embeddings.py` and `rag_system.py` are
shallowly embedded below.  Texts are modelled as lists of characters (a Python
string is a sequence of code points), machine floats as rationals, and calls
into external libraries (the sentence-transformer encoder, sklearn's cosine
similarity, the LLM API, the file system) as explicit function parameters.
Python exceptions are modelled with `Except`.
-/

namespace Rag

/-! ## Text chunker (`src/pdf_processor.py`) -/

/-- Python text: a sequence of characters. -/
abbrev Text := List Char

/-- Exceptions that the chunking code can raise.  `valueError` models the
`ValueError` raised by Python's `range` when its step is zero. -/
inductive PyError where
  | valueError
deriving DecidableEq, Repr

/-- Accumulator-based splitter behind `pySplit`.  `acc` holds the characters of
the word currently being read, most recent first. -/
def pySplitAux : Text → Text → List Text
  | [], acc => if acc = [] then [] else [acc.reverse]
  | c :: cs, acc =>
    if c.isWhitespace then
      if acc = [] then pySplitAux cs [] else acc.reverse :: pySplitAux cs []
    else
      pySplitAux cs (c :: acc)

/-- Python `str.split()` with no arguments: split on runs of whitespace,
discarding empty pieces. -/
def pySplit (t : Text) : List Text :=
  pySplitAux t []

/-- Python `' '.join(words)`: the words concatenated with a single space
between consecutive words. -/
def joinSpace : List Text → Text
  | [] => []
  | [w] => w
  | w :: v :: ws => w ++ ' ' :: joinSpace (v :: ws)

/-- Python `range(0, stop, step)` for an integer `step`: raises `ValueError`
when `step = 0`, is empty when `step < 0` (since `stop ≥ 0`), and otherwise
enumerates `0, step, 2*step, ...` below `stop`. -/
def pyRange0 (stop : ℕ) (step : ℤ) : Except PyError (List ℕ) :=
  if step = 0 then Except.error PyError.valueError
  else if step < 0 then Except.ok []
  else Except.ok ((List.range ((stop + step.toNat - 1) / step.toNat)).map (· * step.toNat))

/-- Embedding of `chunk_text` (src/pdf_processor.py:38-53): split the text into
words, walk the word indices `range(0, len(words), chunk_size - overlap)`, join
each window `words[i : i + chunk_size]` with single spaces, and keep the chunk
only if its own word count exceeds 20.  The loop that conditionally appends is
rendered as `filter` after `map`. -/
def chunk_text (text : Text) (chunk_size overlap : ℕ) : Except PyError (List Text) :=
  (pyRange0 (pySplit text).length ((chunk_size : ℤ) - (overlap : ℤ))).map
    (fun starts =>
      (starts.map (fun i => joinSpace (((pySplit text).drop i).take chunk_size))).filter
        (fun chunk => 20 < (pySplit chunk).length))

/-- Spec-side restatement of the chunker for the refinement claim C8, following
the spec's words: split on whitespace into words; windows start at
`0, stride, 2*stride, ...` with `stride = chunk_size - overlap`; each window
takes up to `chunk_size` consecutive words; a window is included in the output
iff it contains more than 20 words. -/
def chunkSpecWindows (text : Text) (chunk_size overlap : ℕ) : List Text :=
  (((List.range
        (((pySplit text).length + (chunk_size - overlap) - 1) / (chunk_size - overlap))).map
      (fun j => ((pySplit text).drop (j * (chunk_size - overlap))).take chunk_size)).filter
    (fun w => 20 < w.length)).map joinSpace

/-- Last `n` elements of a list (used to state the overlap invariant). -/
def lastN (n : ℕ) (l : List α) : List α :=
  l.drop (l.length - n)

/-! ## Embedding store (`src/embeddings.py`) -/

/-- Chunk record produced by ingestion: `{'source': ..., 'chunk_id': ..., 'text': ...}`. -/
structure Chunk where
  source : String
  chunk_id : ℕ
  text : String
deriving DecidableEq, Repr

instance : Inhabited Chunk := ⟨⟨"", 0, ""⟩⟩

/-- External capabilities used by `EmbeddingStore`: the sentence-transformer
`model.encode` on a single text, and sklearn's `cosine_similarity` on a pair of
vectors.  Both are opaque library calls, so they are parameters of the model. -/
structure Model where
  encode : String → List ℚ
  cosine : List ℚ → List ℚ → ℚ

/-- Exceptions raised inside `EmbeddingStore.search`: `notIndexed` models the
`ValueError("No embeddings found. Call add_chunks first.")` at
embeddings.py:68, and `indexError` a Python `IndexError` when `self.chunks[idx]`
is out of range. -/
inductive StoreError where
  | notIndexed
  | indexError
deriving DecidableEq, Repr

/-- State of an `EmbeddingStore`: the chunk list and the optional embedding
matrix (`None` until `add_chunks` runs), one row per chunk. -/
structure EmbeddingStore where
  chunks : List Chunk
  embeddings : Option (List (List ℚ))
deriving DecidableEq, Repr

/-- A freshly constructed store (`__init__`): no chunks, embeddings `None`. -/
def EmbeddingStore.new : EmbeddingStore :=
  ⟨[], none⟩

/-- Embedding of `add_chunks` (embeddings.py:44-56): replace the chunk list and
encode every chunk's text into a vector, preserving order. -/
def add_chunks (M : Model) (s : EmbeddingStore) (chunks : List Chunk) : EmbeddingStore :=
  { s with chunks := chunks, embeddings := some (chunks.map (fun c => M.encode c.text)) }

/-- Similarity row `cosine_similarity(query_embedding, self.embeddings)[0]`:
the cosine similarity of the encoded query against every stored row. -/
def simsOf (M : Model) (embs : List (List ℚ)) (query : String) : List ℚ :=
  embs.map (fun v => M.cosine (M.encode query) v)

/-- Comparison on indices used to model `np.argsort(similarities)`: index `i`
precedes index `j` when its similarity is smaller, ties ordered by index.  This
is a stable ascending argsort, the deterministic idealisation of numpy's
behaviour (numpy's introsort is insertion sort, hence stable, on small arrays). -/
def simLE (sims : List ℚ) (i j : ℕ) : Prop :=
  sims.getD i 0 < sims.getD j 0 ∨ (sims.getD i 0 = sims.getD j 0 ∧ i ≤ j)

instance (sims : List ℚ) : DecidableRel (simLE sims) := fun i j =>
  inferInstanceAs (Decidable
    (sims.getD i 0 < sims.getD j 0 ∨ (sims.getD i 0 = sims.getD j 0 ∧ i ≤ j)))

instance (sims : List ℚ) : IsTotal ℕ (simLE sims) := ⟨by
  intro i j
  rcases lt_trichotomy (sims.getD i 0) (sims.getD j 0) with h | h | h
  · exact Or.inl (Or.inl h)
  · rcases Nat.le_total i j with hij | hij
    · exact Or.inl (Or.inr ⟨h, hij⟩)
    · exact Or.inr (Or.inr ⟨h.symm, hij⟩)
  · exact Or.inr (Or.inl h)⟩

instance (sims : List ℚ) : IsTrans ℕ (simLE sims) := ⟨by
  intro a b c hab hbc
  rcases hab with h1 | ⟨h1, h1le⟩
  · rcases hbc with h2 | ⟨h2, _⟩
    · exact Or.inl (h1.trans h2)
    · exact Or.inl (lt_of_lt_of_eq h1 h2)
  · rcases hbc with h2 | ⟨h2, h2le⟩
    · exact Or.inl (lt_of_eq_of_lt h1 h2)
    · exact Or.inr ⟨h1.trans h2, h1le.trans h2le⟩⟩

/-- Model of `np.argsort(similarities)`: the indices `0, ..., n-1` sorted by
ascending similarity (stable sort, ties keep index order). -/
def argsort (sims : List ℚ) : List ℕ :=
  List.insertionSort (simLE sims) (List.range sims.length)

/-- Python slice `l[-k:]`.  For `k = 0` the index `-0` is `0`, so the slice is
the whole list - this is the quirk behind `search(top_k=0)`. -/
def negSlice (l : List α) (k : ℕ) : List α :=
  if k = 0 then l else l.drop (l.length - k)

/-- Model of `np.argsort(similarities)[-top_k:][::-1]` (embeddings.py:78): the
index order in which search results are emitted. -/
def searchIndices (sims : List ℚ) (top_k : ℕ) : List ℕ :=
  (negSlice (argsort sims) top_k).reverse

/-- The result-assembly loop of `search` (embeddings.py:81-83): for each index,
pair `self.chunks[idx]` with `similarities[idx]`, raising `IndexError` when a
chunk index is out of range.  (Similarity indices produced by `argsort` are
always in range, so `similarities[idx]` is read with a default.) -/
def collectResults (chunks : List Chunk) (sims : List ℚ) :
    List ℕ → Except StoreError (List (Chunk × ℚ))
  | [] => Except.ok []
  | i :: rest =>
    match chunks[i]? with
    | none => Except.error StoreError.indexError
    | some c =>
      match collectResults chunks sims rest with
      | Except.error e => Except.error e
      | Except.ok tail => Except.ok ((c, sims.getD i 0) :: tail)

/-- Embedding of `EmbeddingStore.search` (embeddings.py:58-85): raise when the
store is not indexed, otherwise embed the query, compute the similarity row,
select `argsort(sims)[-top_k:][::-1]`, and pair chunks with scores. -/
def search (M : Model) (s : EmbeddingStore) (query : String) (top_k : ℕ) :
    Except StoreError (List (Chunk × ℚ)) :=
  match s.embeddings with
  | none => Except.error StoreError.notIndexed
  | some embs =>
    let sims := simsOf M embs query
    collectResults s.chunks sims (searchIndices sims top_k)

/-- Pickled payload written by `save` (embeddings.py:89-92): the chunk list and
the embeddings field, exactly as stored. -/
structure Blob where
  chunks : List Chunk
  embeddings : Option (List (List ℚ))
deriving DecidableEq, Repr

/-- Embedding of `save` (embeddings.py:87-95): serialise both fields into one
blob (pickle round-trips values exactly). -/
def save (s : EmbeddingStore) : Blob :=
  ⟨s.chunks, s.embeddings⟩

/-- Errors raised by `load`: `ioError` when the file cannot be opened, and
`attributeError` for the `AttributeError` raised by the final
`print(self.embeddings.shape)` at embeddings.py:105 when the pickled
embeddings field is `None` (`None` has no `.shape`). -/
inductive LoadError where
  | ioError
  | attributeError
deriving DecidableEq, Repr

/-- File system model: a partial map from paths to pickled blobs. -/
def FileSystem := String → Option Blob

/-- Writing a blob to a path. -/
def fsWrite (fs : FileSystem) (path : String) (b : Blob) : FileSystem :=
  fun p => if p = path then some b else fs p

/-- Embedding of `load` (embeddings.py:97-105): open the file (IOError when
absent), unpickle, assign both fields unconditionally - there is no shape
validation - and finally print `self.embeddings.shape`, which raises
`AttributeError` when the loaded embeddings are `None`. -/
def load (fs : FileSystem) (path : String) : Except LoadError EmbeddingStore :=
  match fs path with
  | none => Except.error LoadError.ioError
  | some b =>
    match b.embeddings with
    | none => Except.error LoadError.attributeError
    | some embs => Except.ok ⟨b.chunks, some embs⟩

/-! ## RAG pipeline (`src/rag_system.py`) -/

/-- Token usage reported by the LLM API. -/
structure LLMUsage where
  input_tokens : ℕ
  output_tokens : ℕ
deriving DecidableEq, Repr

/-- Response of the external LLM capability, per the external-interface
boundary: generated text plus usage. -/
structure LLMMessage where
  text : String
  usage : LLMUsage
deriving DecidableEq, Repr

/-- Failure of the external LLM capability (an exception raised by the API
client); it carries only a message, no retrieval data. -/
inductive LLMError where
  | apiFailure (msg : String)
deriving DecidableEq, Repr

/-- Source reference assembled by `generate_answer` (rag_system.py:62-67). -/
structure SourceRef where
  source : String
  chunk_id : ℕ
  similarity : ℚ
  text : String
deriving DecidableEq, Repr

/-- Token accounting of a returned answer (rag_system.py:110-114). -/
structure TokenCounts where
  input : ℕ
  output : ℕ
  total : ℕ
deriving DecidableEq, Repr

/-- Result dictionary returned by `generate_answer` (rag_system.py:105-115). -/
structure RAGAnswer where
  query : String
  answer : String
  sources : List SourceRef
  retrieved_count : ℕ
  tokens : TokenCounts
deriving DecidableEq, Repr

/-- RAG system state: the embedding store, the external encoder/cosine
capabilities, the external LLM capability (`self.client.messages.create`
composed with the `message.content[0].text` / usage extraction, per the
external-interface boundary), and the logging flag.  The query logger is an
external side channel that does not affect any returned value, so it is not
modelled. -/
structure RAGSystem where
  store : EmbeddingStore
  M : Model
  llm : String → Except LLMError LLMMessage
  enable_logging : Bool

/-- Preview entry appended to `sources` (rag_system.py:62-67): Python's
`chunk['text'][:200] + "..."`. -/
def sourceRefOf (p : Chunk × ℚ) : SourceRef :=
  ⟨p.1.source, p.1.chunk_id, p.2, p.1.text.take 200 ++ "..."⟩

/-- One context block (rag_system.py:60-61).  Python's `{score:.3f}` float
formatting is abstracted as numeral rendering; no claim depends on the digits. -/
def contextEntry (i : ℕ) (c : Chunk) (score : ℚ) : String :=
  "\n[Source " ++ toString i ++ ": " ++ c.source ++ ", similarity=" ++ toString score ++ "]\n"
    ++ c.text ++ "\n"

/-- The context accumulation loop `for i, (chunk, score) in enumerate(retrieved_chunks, 1)`. -/
def buildContext (retrieved : List (Chunk × ℚ)) : String :=
  String.join ((retrieved.enumFrom 1).map (fun p => contextEntry p.1 p.2.1 p.2.2))

/-- The grounding prompt (rag_system.py:70-77); the f-string's indentation is
reproduced only up to whitespace, which no claim depends on. -/
def buildPrompt (context query : String) : String :=
  "Based on these research paper excerpts, answer the question with citations.\n\nContext:\n"
    ++ context ++ "\n\nQuestion: " ++ query ++ "\n\nAnswer concisely with source citations:"

/-- Embedding of `generate_answer` (rag_system.py:49-115): build sources and
context, call the LLM once with the prompt (any API exception propagates), and
assemble the result dictionary.  `log_query` is an external side effect with no
influence on the returned value. -/
def generate_answer (r : RAGSystem) (query : String) (retrieved : List (Chunk × ℚ)) :
    Except LLMError RAGAnswer :=
  let sources := retrieved.map sourceRefOf
  let context := buildContext retrieved
  let prompt := buildPrompt context query
  match r.llm prompt with
  | Except.error e => Except.error e
  | Except.ok message =>
    Except.ok
      { query := query
        answer := message.text
        sources := sources
        retrieved_count := retrieved.length
        tokens :=
          { input := message.usage.input_tokens
            output := message.usage.output_tokens
            total := message.usage.input_tokens + message.usage.output_tokens } }

/-- Exceptions escaping from `ask`: either a retrieval error or an LLM error. -/
inductive AskError where
  | store (e : StoreError)
  | gen (e : LLMError)
deriving DecidableEq, Repr

/-- Embedding of `ask` (rag_system.py:117-139): retrieve, then generate; any
exception from either stage propagates to the caller. -/
def ask (r : RAGSystem) (query : String) (top_k : ℕ) : Except AskError RAGAnswer :=
  match search r.M r.store query top_k with
  | Except.error e => Except.error (AskError.store e)
  | Except.ok retrieved =>
    match generate_answer r query retrieved with
    | Except.error e => Except.error (AskError.gen e)
    | Except.ok res => Except.ok res

/-! ## Concrete instances used by witnesses and counterexamples -/

/-- Example chunk 0: same text as chunk 1, so both receive the same embedding. -/
def exChunk0 : Chunk := ⟨"doc.pdf", 0, "same text"⟩

/-- Example chunk 1: same text as chunk 0, so both receive the same embedding. -/
def exChunk1 : Chunk := ⟨"doc.pdf", 1, "same text"⟩

/-- Concrete external capabilities: every text encodes to the vector `[1]`, and
the cosine similarity of `[1]` with `[1]` is `1` (equal unit vectors). -/
def exModel : Model := ⟨fun _ => [1], fun _ _ => 1⟩

/-- Indexed store with a single chunk. -/
def exStore1 : EmbeddingStore := ⟨[exChunk0], some [[1]]⟩

/-- Indexed store with two chunks of identical text, hence identical embedding
rows and identical similarity scores for every query. -/
def exStore2 : EmbeddingStore := ⟨[exChunk0, exChunk1], some [[1], [1]]⟩

/-- RAG system whose LLM capability raises on every call. -/
def exRagFail : RAGSystem :=
  ⟨exStore1, exModel, fun _ => Except.error (LLMError.apiFailure "connection refused"), false⟩

/-- RAG system whose LLM capability returns an empty response (empty generated
text) without raising. -/
def exRagEmpty : RAGSystem :=
  ⟨exStore1, exModel, fun _ => Except.ok ⟨"", ⟨3, 0⟩⟩, false⟩

/-- Example text made of 22 single-letter whitespace-separated words, used by
the chunker claims. -/
def exText : Text := "a b c d e f g h i j k l m n o p q r s t u v".toList

/-! ## Lemmas about the search index selection -/

theorem argsort_perm (sims : List ℚ) : (argsort sims).Perm (List.range sims.length) :=
  List.perm_insertionSort _ _

theorem argsort_sorted (sims : List ℚ) : List.Sorted (simLE sims) (argsort sims) :=
  List.sorted_insertionSort _ _

theorem argsort_length (sims : List ℚ) : (argsort sims).length = sims.length := by
  simpa using (argsort_perm sims).length_eq

theorem argsort_nodup (sims : List ℚ) : (argsort sims).Nodup :=
  ((argsort_perm sims).nodup_iff).mpr (List.nodup_range _)

theorem negSlice_sublist (l : List α) (k : ℕ) : (negSlice l k).Sublist l := by
  unfold negSlice
  split
  · exact List.Sublist.refl l
  · exact List.drop_sublist _ l

theorem negSlice_length (l : List α) (k : ℕ) :
    (negSlice l k).length = if k = 0 then l.length else min k l.length := by
  unfold negSlice
  split
  · simp [*]
  · simp only [List.length_drop]
    omega

theorem searchIndices_length (sims : List ℚ) (k : ℕ) :
    (searchIndices sims k).length = if k = 0 then sims.length else min k sims.length := by
  unfold searchIndices
  rw [List.length_reverse, negSlice_length, argsort_length]

theorem searchIndices_mem_lt (sims : List ℚ) (k : ℕ) (i : ℕ)
    (hi : i ∈ searchIndices sims k) : i < sims.length := by
  unfold searchIndices at hi
  rw [List.mem_reverse] at hi
  have h1 : i ∈ argsort sims := (negSlice_sublist _ _).mem hi
  have h2 : i ∈ List.range sims.length := (argsort_perm sims).mem_iff.mp h1
  exact List.mem_range.mp h2

theorem searchIndices_sorted (sims : List ℚ) (k : ℕ) :
    List.Pairwise (fun i j => simLE sims j i) (searchIndices sims k) := by
  unfold searchIndices
  rw [List.pairwise_reverse]
  exact List.Pairwise.sublist (negSlice_sublist _ _) (argsort_sorted sims)

theorem searchIndices_nodup (sims : List ℚ) (k : ℕ) :
    (searchIndices sims k).Nodup := by
  unfold searchIndices
  rw [List.nodup_reverse]
  exact (negSlice_sublist _ _).nodup (argsort_nodup sims)

theorem collectResults_eq (chunks : List Chunk) (sims : List ℚ) (idx : List ℕ)
    (h : ∀ i ∈ idx, i < chunks.length) :
    collectResults chunks sims idx =
      Except.ok (idx.map (fun i => (chunks.getD i default, sims.getD i 0))) := by
  induction idx with
  | nil => rfl
  | cons i rest ih =>
    have hi : i < chunks.length := h i (List.mem_cons_self i rest)
    have hrest : ∀ j ∈ rest, j < chunks.length := fun j hj => h j (List.mem_cons_of_mem i hj)
    rw [collectResults, List.getElem?_eq_getElem hi, ih hrest, List.map_cons,
      List.getD_eq_getElem chunks default hi]

theorem search_eq_of_indexed (M : Model) (s : EmbeddingStore) (query : String) (k : ℕ)
    (embs : List (List ℚ)) (hemb : s.embeddings = some embs)
    (hlen : s.chunks.length = embs.length) :
    search M s query k =
      Except.ok ((searchIndices (simsOf M embs query) k).map
        (fun i => (s.chunks.getD i default, (simsOf M embs query).getD i 0))) := by
  unfold search
  rw [hemb]
  refine collectResults_eq _ _ _ (fun i hi => ?_)
  have h1 : i < (simsOf M embs query).length := searchIndices_mem_lt _ _ _ hi
  rw [simsOf, List.length_map] at h1
  omega

/-! ## Claims C1, C2, C7 -/

/-- C1 (amended): for every indexed store whose chunk count matches its
embedding row count, `search(query, topK)` succeeds and returns `min(topK,
count)` results when `topK ≥ 1`; but `search(topK = 0)` returns the FULL
ranked corpus (Python's `[-0:]` slice is the whole array), not an empty
sequence; `topK` greater than the corpus size returns the full corpus without
error. -/
theorem C1_search_length (M : Model) (s : EmbeddingStore) (query : String) (k : ℕ)
    (embs : List (List ℚ)) (hemb : s.embeddings = some embs)
    (hlen : s.chunks.length = embs.length) :
    (search M s query k).map List.length =
      Except.ok (if k = 0 then embs.length else min k embs.length) := by
  rw [search_eq_of_indexed M s query k embs hemb hlen]
  simp only [Except.map, List.length_map, searchIndices_length, simsOf, List.length_map]

/-- Witness for C1: a one-chunk store queried with `topK = 1` returns exactly
`min 1 1 = 1` result. -/
theorem C1_witness :
    exStore1.embeddings = some [[1]] ∧
    exStore1.chunks.length = ([[1]] : List (List ℚ)).length ∧
    (search exModel exStore1 "q" 1).map List.length =
      Except.ok (if (1 : ℕ) = 0 then ([[1]] : List (List ℚ)).length
        else min 1 ([[1]] : List (List ℚ)).length) :=
  ⟨rfl, rfl, C1_search_length exModel exStore1 "q" 1 [[1]] rfl rfl⟩

set_option maxRecDepth 4000 in
/-- Counterexample to C1 as stated: on a one-chunk store, `search(topK = 0)`
returns the single stored chunk, a sequence of length `1 ≠ min 0 1 = 0`, not
the empty sequence the claim requires. -/
theorem C1_cex :
    search exModel exStore1 "q" 0 = Except.ok [(exChunk0, 1)] ∧
    ¬ ([(exChunk0, (1 : ℚ))].length = min 0 exStore1.chunks.length) :=
  ⟨rfl, by decide⟩

/-- C2 (amended): for every indexed store (with matching chunk/embedding
counts) and every query, `search` is deterministic and returns exactly the
chunk/score pairs selected by `searchIndices`; the scores are weakly
descending, and two results with EQUAL similarity appear in DESCENDING order
of original insertion index (the ascending argsort is reversed, flipping the
tie order) - not ascending as claimed. -/
theorem C2_search_ordering (M : Model) (s : EmbeddingStore) (query : String) (k : ℕ)
    (embs : List (List ℚ)) (hemb : s.embeddings = some embs)
    (hlen : s.chunks.length = embs.length) (p r : ℕ) (hpr : p < r)
    (hr : r < (searchIndices (simsOf M embs query) k).length) :
    search M s query k =
      Except.ok ((searchIndices (simsOf M embs query) k).map
        (fun i => (s.chunks.getD i default, (simsOf M embs query).getD i 0))) ∧
    (simsOf M embs query).getD ((searchIndices (simsOf M embs query) k).getD r 0) 0 ≤
      (simsOf M embs query).getD ((searchIndices (simsOf M embs query) k).getD p 0) 0 ∧
    ((simsOf M embs query).getD ((searchIndices (simsOf M embs query) k).getD r 0) 0 =
        (simsOf M embs query).getD ((searchIndices (simsOf M embs query) k).getD p 0) 0 →
      (searchIndices (simsOf M embs query) k).getD r 0 <
        (searchIndices (simsOf M embs query) k).getD p 0) := by
  have hp : p < (searchIndices (simsOf M embs query) k).length := lt_trans hpr hr
  have hgp := List.getD_eq_getElem (searchIndices (simsOf M embs query) k) 0 hp
  have hgr := List.getD_eq_getElem (searchIndices (simsOf M embs query) k) 0 hr
  have hpair := List.pairwise_iff_getElem.mp
    (searchIndices_sorted (simsOf M embs query) k) p r hp hr hpr
  have hne : (searchIndices (simsOf M embs query) k)[r] ≠
      (searchIndices (simsOf M embs query) k)[p] := by
    intro he
    have : r = p := ((searchIndices_nodup (simsOf M embs query) k).getElem_inj_iff).mp he
    omega
  refine ⟨search_eq_of_indexed M s query k embs hemb hlen, ?_, ?_⟩
  · rw [hgp, hgr]
    rcases hpair with hlt | ⟨heq, _⟩
    · exact le_of_lt hlt
    · exact le_of_eq heq
  · rw [hgp, hgr]
    intro heq2
    rcases hpair with hlt | ⟨_, hle⟩
    · exact absurd heq2 (ne_of_lt hlt)
    · exact lt_of_le_of_ne hle hne

set_option maxRecDepth 4000 in
/-- Witness for C2: a two-chunk store with identical texts (hence identical
embeddings and tied scores) queried with `topK = 2`; positions `0 < 1` in the
result satisfy the amended ordering. -/
theorem C2_witness :
    exStore2.embeddings = some [[1], [1]] ∧
    exStore2.chunks.length = ([[1], [1]] : List (List ℚ)).length ∧
    (0 : ℕ) < 1 ∧
    1 < (searchIndices (simsOf exModel [[1], [1]] "q") 2).length ∧
    (search exModel exStore2 "q" 2 =
        Except.ok ((searchIndices (simsOf exModel [[1], [1]] "q") 2).map
          (fun i => (exStore2.chunks.getD i default,
            (simsOf exModel [[1], [1]] "q").getD i 0))) ∧
      (simsOf exModel [[1], [1]] "q").getD
          ((searchIndices (simsOf exModel [[1], [1]] "q") 2).getD 1 0) 0 ≤
        (simsOf exModel [[1], [1]] "q").getD
          ((searchIndices (simsOf exModel [[1], [1]] "q") 2).getD 0 0) 0 ∧
      ((simsOf exModel [[1], [1]] "q").getD
          ((searchIndices (simsOf exModel [[1], [1]] "q") 2).getD 1 0) 0 =
          (simsOf exModel [[1], [1]] "q").getD
            ((searchIndices (simsOf exModel [[1], [1]] "q") 2).getD 0 0) 0 →
        (searchIndices (simsOf exModel [[1], [1]] "q") 2).getD 1 0 <
          (searchIndices (simsOf exModel [[1], [1]] "q") 2).getD 0 0)) :=
  ⟨rfl, rfl, Nat.zero_lt_one, by decide,
    C2_search_ordering exModel exStore2 "q" 2 [[1], [1]] rfl rfl 0 1 Nat.zero_lt_one (by decide)⟩

set_option maxRecDepth 4000 in
/-- Counterexample to C2 as stated: two chunks with identical text receive
identical similarity scores, yet `search` returns the chunk with insertion
index 1 BEFORE the chunk with insertion index 0 - the opposite of the claimed
ascending tie-break, under which the output would be
`[(exChunk0, 1), (exChunk1, 1)]`. -/
theorem C2_cex :
    search exModel exStore2 "q" 2 = Except.ok [(exChunk1, 1), (exChunk0, 1)] ∧
    ([(exChunk1, (1 : ℚ)), (exChunk0, 1)] : List (Chunk × ℚ)) ≠ [(exChunk0, 1), (exChunk1, 1)] :=
  ⟨rfl, by decide⟩

/-- C7 (confirmed): on every store whose embeddings field is still `None` -
in particular a freshly constructed store on which `add_chunks` has never been
called - `search` fails with the not-indexed error for every query and topK. -/
theorem C7_not_indexed (M : Model) (s : EmbeddingStore) (query : String) (k : ℕ)
    (h : s.embeddings = none) :
    search M s query k = Except.error StoreError.notIndexed := by
  unfold search
  rw [h]

/-- Witness for C7: a fresh store rejects a concrete search. -/
theorem C7_witness :
    EmbeddingStore.new.embeddings = none ∧
    search exModel EmbeddingStore.new "q" 5 = Except.error StoreError.notIndexed :=
  ⟨rfl, C7_not_indexed exModel EmbeddingStore.new "q" 5 rfl⟩

/-! ## Claims C4, C9 (persistence) -/

/-- C4 (amended): for every store whose embeddings are present (`add_chunks`
has run), `save(path)` followed by `load(path)` restores the store exactly -
the chunks sequence is element-wise identical and the embedding matrix is
element-wise identical (exact equality, hence within any tolerance such as
1e-6, same dimension and row order).  For a store without embeddings the
round-trip instead raises (see the counterexample). -/
theorem C4_roundtrip (s : EmbeddingStore) (fs : FileSystem) (path : String)
    (embs : List (List ℚ)) (h : s.embeddings = some embs) :
    load (fsWrite fs path (save s)) path = Except.ok s := by
  cases s with
  | mk chunks embeddings =>
    simp only [EmbeddingStore.mk.injEq] at h
    subst h
    simp [load, fsWrite, save]

/-- Witness for C4: a concrete indexed store survives the round-trip. -/
theorem C4_witness :
    exStore1.embeddings = some [[1]] ∧
    load (fsWrite (fun _ => none) "store.pkl" (save exStore1)) "store.pkl" =
      Except.ok exStore1 :=
  ⟨rfl, C4_roundtrip exStore1 (fun _ => none) "store.pkl" [[1]] rfl⟩

/-- Counterexample to C4 as stated ("for every store"): saving a freshly
constructed store pickles `embeddings = None`, and `load` then raises an
`AttributeError` (its final print reads `self.embeddings.shape`, and `None`
has no `shape`), so the round-trip does not yield a store at all. -/
theorem C4_cex :
    load (fsWrite (fun _ => none) "store.pkl" (save EmbeddingStore.new)) "store.pkl" =
      Except.error LoadError.attributeError :=
  rfl

/-- C9 (amended): `load` fails with `IOError` when the file is absent, but it
performs NO shape validation: any blob whose embeddings are present loads
successfully with both fields taken verbatim, even when the chunk count does
not match the embedding row count - no `CorruptionError` is raised (the
mismatch surfaces only later, e.g. as an `IndexError` during `search`). -/
theorem C9_load_behaviour (fs : FileSystem) (path : String) :
    (fs path = none → load fs path = Except.error LoadError.ioError) ∧
    (∀ b embs, fs path = some b → b.embeddings = some embs →
      load fs path = Except.ok ⟨b.chunks, some embs⟩) := by
  constructor
  · intro h
    simp [load, h]
  · intro b embs hb he
    simp [load, hb, he]

/-- Witness for C9: a missing file raises `IOError`, and a concrete MISMATCHED
blob (1 chunk, 2 embedding rows) loads without any error. -/
theorem C9_witness :
    ((fun (_ : String) => (none : Option Blob)) "p" = none ∧
      load (fun _ => none) "p" = Except.error LoadError.ioError) ∧
    ((fun (_ : String) => some (Blob.mk [exChunk0] (some [[1], [2]]))) "p" =
        some (Blob.mk [exChunk0] (some [[1], [2]])) ∧
      (Blob.mk [exChunk0] (some [[1], [2]])).embeddings = some [[1], [2]] ∧
      load (fun _ => some (Blob.mk [exChunk0] (some [[1], [2]]))) "p" =
        Except.ok ⟨[exChunk0], some [[1], [2]]⟩) :=
  ⟨⟨rfl, (C9_load_behaviour (fun _ => none) "p").1 rfl⟩,
    ⟨rfl, rfl, (C9_load_behaviour (fun _ => some (Blob.mk [exChunk0] (some [[1], [2]]))) "p").2
      (Blob.mk [exChunk0] (some [[1], [2]])) [[1], [2]] rfl rfl⟩⟩

/-- Counterexample to C9 as stated: a persisted blob with 1 chunk but 2
embedding rows does NOT make `load` fail with a corruption error - it loads
successfully and verbatim. -/
theorem C9_cex :
    load (fun _ => some (Blob.mk [exChunk0] (some [[1], [2]]))) "p" =
      Except.ok ⟨[exChunk0], some [[1], [2]]⟩ ∧
    ([exChunk0] : List Chunk).length ≠ ([[1], [2]] : List (List ℚ)).length :=
  ⟨rfl, by decide⟩

/-! ## Claims C5, C10 (RAG pipeline) -/

/-- C5 (amended): when retrieval succeeds and the external LLM capability
raises, `ask` propagates exactly that error to the caller - never silently
swallowed, the capability is consulted once with no automatic retry - but NO
partial context is returned: the error value carries none of the ranked
sources that were retrieved before the failure.  (An empty LLM response, by
contrast, is not detected as a failure at all; see the counterexample.) -/
theorem C5_generation_error (r : RAGSystem) (query : String) (k : ℕ)
    (retrieved : List (Chunk × ℚ)) (e : LLMError)
    (hret : search r.M r.store query k = Except.ok retrieved)
    (hllm : r.llm (buildPrompt (buildContext retrieved) query) = Except.error e) :
    ask r query k = Except.error (AskError.gen e) := by
  simp [ask, generate_answer, hret, hllm]

set_option maxRecDepth 4000 in
/-- Witness for C5: a concrete system whose LLM capability raises; `ask`
surfaces exactly that error. -/
theorem C5_witness :
    search exRagFail.M exRagFail.store "q" 1 = Except.ok [(exChunk0, 1)] ∧
    exRagFail.llm (buildPrompt (buildContext [(exChunk0, 1)]) "q") =
      Except.error (LLMError.apiFailure "connection refused") ∧
    ask exRagFail "q" 1 = Except.error (AskError.gen (LLMError.apiFailure "connection refused")) :=
  ⟨rfl, rfl,
    C5_generation_error exRagFail "q" 1 [(exChunk0, 1)]
      (LLMError.apiFailure "connection refused") rfl rfl⟩

set_option maxRecDepth 4000 in
/-- Counterexample to C5 as stated: the claim requires an empty LLM response
to surface a `GenerationError`, but with a capability that returns empty
generated text `ask` SUCCEEDS, returning an answer whose text is empty - no
error is raised or surfaced. -/
theorem C5_cex :
    ask exRagEmpty "q" 1 =
      Except.ok
        { query := "q", answer := "",
          sources := [⟨"doc.pdf", 0, 1, "same text..."⟩],
          retrieved_count := 1, tokens := ⟨3, 0, 3⟩ } :=
  rfl

/-- C10 (confirmed): every successful `generate_answer` returns a result whose
token total is exactly input + output, and whose `retrieved_count` equals both
the number of retrieved chunks and the length of the returned `sources`. -/
theorem C10_result_invariants (r : RAGSystem) (query : String)
    (retrieved : List (Chunk × ℚ)) (res : RAGAnswer)
    (h : generate_answer r query retrieved = Except.ok res) :
    res.tokens.total = res.tokens.input + res.tokens.output ∧
    res.retrieved_count = retrieved.length ∧
    res.sources.length = retrieved.length := by
  unfold generate_answer at h
  cases hllm : r.llm (buildPrompt (buildContext retrieved) query) with
  | error e =>
    simp only [hllm] at h
    exact Except.noConfusion h
  | ok message =>
    simp only [hllm] at h
    injection h with h2
    subst h2
    exact ⟨rfl, rfl, by simp⟩

set_option maxRecDepth 4000 in
/-- Witness for C10: a concrete successful generation satisfies the token and
count invariants. -/
theorem C10_witness :
    generate_answer exRagEmpty "q" [(exChunk0, 1)] =
      Except.ok
        { query := "q", answer := "",
          sources := [⟨"doc.pdf", 0, 1, "same text..."⟩],
          retrieved_count := 1, tokens := ⟨3, 0, 3⟩ } ∧
    ((3 : ℕ) = 3 + 0 ∧ (1 : ℕ) = [(exChunk0, (1 : ℚ))].length ∧
      [(⟨"doc.pdf", 0, 1, "same text..."⟩ : SourceRef)].length = [(exChunk0, (1 : ℚ))].length) :=
  ⟨rfl,
    C10_result_invariants exRagEmpty "q" [(exChunk0, 1)]
      { query := "q", answer := "",
        sources := [⟨"doc.pdf", 0, 1, "same text..."⟩],
        retrieved_count := 1, tokens := ⟨3, 0, 3⟩ } rfl⟩

/-! ## Lemmas about the chunker -/

theorem pySplitAux_append_nonws (w : Text) :
    ∀ (cs acc : Text), (∀ c ∈ w, c.isWhitespace = false) →
      pySplitAux (w ++ cs) acc = pySplitAux cs (w.reverse ++ acc) := by
  induction w with
  | nil => intro cs acc _; rfl
  | cons c w ih =>
    intro cs acc hw
    have hc : c.isWhitespace = false := hw c (List.mem_cons_self c w)
    have hw2 : ∀ x ∈ w, x.isWhitespace = false := fun x hx => hw x (List.mem_cons_of_mem c hx)
    rw [List.cons_append, pySplitAux, if_neg (by simp [hc]), ih cs (c :: acc) hw2]
    simp [List.append_assoc]

theorem pySplitAux_ws_head (c : Char) (cs acc : Text) (hc : c.isWhitespace = true) :
    pySplitAux (c :: cs) acc =
      if acc = [] then pySplitAux cs [] else acc.reverse :: pySplitAux cs [] := by
  rw [pySplitAux, if_pos hc]

theorem pySplitAux_words_good (t : Text) :
    ∀ acc, (∀ c ∈ acc, c.isWhitespace = false) →
      ∀ w ∈ pySplitAux t acc, w ≠ [] ∧ ∀ c ∈ w, c.isWhitespace = false := by
  induction t with
  | nil =>
    intro acc hacc w hw
    by_cases h : acc = []
    · subst h
      simp [pySplitAux] at hw
    · rw [pySplitAux, if_neg h] at hw
      rw [List.mem_singleton] at hw
      subst hw
      refine ⟨by simpa using h, fun c hc => hacc c (List.mem_reverse.mp hc)⟩
  | cons c cs ih =>
    intro acc hacc w hw
    by_cases hws : c.isWhitespace = true
    · rw [pySplitAux_ws_head c cs acc hws] at hw
      by_cases h : acc = []
      · rw [if_pos h] at hw
        exact ih [] (by simp) w hw
      · rw [if_neg h] at hw
        rcases List.mem_cons.mp hw with h1 | h1
        · subst h1
          exact ⟨by simpa using h, fun x hx => hacc x (List.mem_reverse.mp hx)⟩
        · exact ih [] (by simp) w h1
    · have hc : c.isWhitespace = false := by simpa using hws
      rw [pySplitAux, if_neg (by simp [hc])] at hw
      refine ih (c :: acc) ?_ w hw
      intro x hx
      rcases List.mem_cons.mp hx with h1 | h1
      · subst h1; exact hc
      · exact hacc x h1

theorem pySplit_words_good (t : Text) :
    ∀ w ∈ pySplit t, w ≠ [] ∧ ∀ c ∈ w, c.isWhitespace = false :=
  pySplitAux_words_good t [] (by simp)

theorem pySplit_joinSpace :
    ∀ ws : List Text, (∀ w ∈ ws, w ≠ [] ∧ ∀ c ∈ w, c.isWhitespace = false) →
      pySplit (joinSpace ws) = ws := by
  intro ws
  induction ws with
  | nil => intro _; rfl
  | cons w rest ih =>
    intro h
    have hw := h w (List.mem_cons_self w rest)
    have hrest : ∀ v ∈ rest, v ≠ [] ∧ ∀ c ∈ v, c.isWhitespace = false :=
      fun v hv => h v (List.mem_cons_of_mem w hv)
    have hrev : w.reverse ≠ [] := by simpa using hw.1
    cases rest with
    | nil =>
      show pySplitAux (joinSpace [w]) [] = [w]
      have h1 := pySplitAux_append_nonws w [] [] hw.2
      rw [List.append_nil, List.append_nil] at h1
      rw [joinSpace, h1, pySplitAux, if_neg hrev, List.reverse_reverse]
    | cons v rest2 =>
      show pySplitAux (joinSpace (w :: v :: rest2)) [] = w :: v :: rest2
      rw [joinSpace, pySplitAux_append_nonws w (' ' :: joinSpace (v :: rest2)) [] hw.2,
        List.append_nil, pySplitAux_ws_head ' ' _ _ rfl, if_neg hrev, List.reverse_reverse]
      exact congrArg (w :: ·) (ih hrest)

theorem window_words_good (t : Text) (i n : ℕ) :
    ∀ w ∈ ((pySplit t).drop i).take n, w ≠ [] ∧ ∀ c ∈ w, c.isWhitespace = false := by
  intro w hw
  have hsub : (((pySplit t).drop i).take n).Sublist (pySplit t) :=
    (List.take_sublist _ _).trans (List.drop_sublist _ _)
  exact pySplit_words_good t w (hsub.mem hw)

theorem pySplit_join_window (t : Text) (i n : ℕ) :
    pySplit (joinSpace (((pySplit t).drop i).take n)) = ((pySplit t).drop i).take n :=
  pySplit_joinSpace _ (window_words_good t i n)

theorem pyRange0_pos (stop cs ov : ℕ) (h : ov < cs) :
    pyRange0 stop ((cs : ℤ) - (ov : ℤ)) =
      Except.ok ((List.range ((stop + (cs - ov) - 1) / (cs - ov))).map (· * (cs - ov))) := by
  unfold pyRange0
  rw [if_neg (by omega), if_neg (by omega),
    show ((cs : ℤ) - (ov : ℤ)).toNat = cs - ov by omega]

/-- Shared refinement lemma: for valid parameters (`overlap < chunk_size`) the
source chunker agrees with the spec-side chunker. -/
theorem chunk_text_eq_spec (text : Text) (cs ov : ℕ) (h : ov < cs) :
    chunk_text text cs ov = Except.ok (chunkSpecWindows text cs ov) := by
  unfold chunk_text chunkSpecWindows
  rw [pyRange0_pos _ cs ov h]
  simp only [Except.map]
  refine congrArg Except.ok ?_
  simp only [List.filter_map, List.map_map, Function.comp_def]
  refine congrArg _ (List.filter_congr ?_)
  intro i _
  simp only [pySplit_join_window]

/-! ## Claims C6, C8 (chunker parameters and refinement) -/

/-- C6 (amended): the chunker performs no parameter validation.  With
`overlap = chunk_size` the Python `range` step is zero and a bare `ValueError`
escapes (not a dedicated configuration check); with `overlap > chunk_size` the
step is negative, the range is empty, and `chunk` silently returns the EMPTY
sequence for every text instead of failing. -/
theorem C6_invalid_params (text : Text) (cs ov : ℕ) (h : cs ≤ ov) :
    chunk_text text cs ov =
      if ov = cs then Except.error PyError.valueError else Except.ok [] := by
  unfold chunk_text
  by_cases he : ov = cs
  · rw [if_pos he]
    unfold pyRange0
    rw [if_pos (by omega)]
    rfl
  · rw [if_neg he]
    unfold pyRange0
    rw [if_neg (by omega), if_pos (by omega)]
    rfl

/-- Witness for C6: concrete invalid parameters `chunk_size = 1 < overlap = 2`. -/
theorem C6_witness :
    (1 : ℕ) ≤ 2 ∧
    chunk_text [] 1 2 = (if (2 : ℕ) = 1 then Except.error PyError.valueError else Except.ok []) :=
  ⟨by decide, C6_invalid_params [] 1 2 (by decide)⟩

set_option maxRecDepth 8000 in
/-- Counterexample to C6 as stated: on a 22-word text with
`overlap = 250 > chunk_size = 200`, `chunk` does NOT fail with any
configuration error - it silently returns the empty sequence. -/
theorem C6_cex :
    chunk_text exText 200 250 = Except.ok [] ∧ (pySplit exText).length = 22 :=
  ⟨rfl, rfl⟩

/-- C8 (confirmed): for every text and valid parameters (`overlap <
chunk_size`), the chunker returns exactly the windows described by the spec:
split on whitespace into words, windows starting at word indices `0, stride,
2*stride, ...` with `stride = chunk_size - overlap`, each window taking up to
`chunk_size` consecutive words, a window kept iff it contains more than 20
words. -/
theorem C8_chunker_refinement (text : Text) (cs ov : ℕ) (h : ov < cs) :
    chunk_text text cs ov = Except.ok (chunkSpecWindows text cs ov) :=
  chunk_text_eq_spec text cs ov h

/-- Witness for C8: the refinement at a concrete text and concrete valid
parameters. -/
theorem C8_witness :
    (3 : ℕ) < 25 ∧ chunk_text exText 25 3 = Except.ok (chunkSpecWindows exText 25 3) :=
  ⟨by decide, C8_chunker_refinement exText 25 3 (by decide)⟩

/-! ## Supporting lemmas for C3 -/

theorem filter_all_but_last {α : Type} (p : α → Bool) (d : α) :
    ∀ l : List α, (∀ j, j + 1 < l.length → p (l.getD j d) = true) →
      l.filter p = l ∨ l.filter p = l.dropLast := by
  intro l
  induction l with
  | nil => intro _; exact Or.inl rfl
  | cons a l2 ih =>
    intro h
    cases l2 with
    | nil =>
      by_cases hpa : p a = true
      · exact Or.inl (by rw [List.filter_cons_of_pos hpa]; rfl)
      · refine Or.inr ?_
        rw [List.filter_cons_of_neg (by simpa using hpa)]
        rfl
    | cons b l3 =>
      have hpa : p a = true := h 0 (by simp)
      have h2 : ∀ j, j + 1 < (b :: l3).length → p ((b :: l3).getD j d) = true := by
        intro j hj
        exact h (j + 1) (by simpa using Nat.succ_lt_succ hj)
      rcases ih h2 with h3 | h3
      · exact Or.inl (by rw [List.filter_cons_of_pos hpa, h3])
      · exact Or.inr (by rw [List.filter_cons_of_pos hpa, h3, List.dropLast_cons₂])

/-- C3 (confirmed): every window produced by `chunk(T, 200, 50)` has word
count at most 200, and for consecutive windows the last 50 words of window `i`
equal the first 50 words of window `i+1`, except possibly when window `i+1` is
the final window and is short (fewer than 50 words). -/
theorem C3_overlap_invariant (text : Text) (l : List Text)
    (h : chunk_text text 200 50 = Except.ok l) :
    (∀ w ∈ l, (pySplit w).length ≤ 200) ∧
    (∀ i, i + 1 < l.length →
      lastN 50 (pySplit (l.getD i [])) = (pySplit (l.getD (i + 1) [])).take 50 ∨
      (i + 2 = l.length ∧ (pySplit (l.getD (i + 1) [])).length < 50)) := by
  rw [chunk_text_eq_spec text 200 50 (by norm_num)] at h
  injection h with h2
  subst h2
  unfold chunkSpecWindows
  simp only [show (200 - 50 : ℕ) = 150 from rfl]
  have hgood : ∀ s : ℕ,
      pySplit (joinSpace (((pySplit text).drop s).take 200)) = ((pySplit text).drop s).take 200 :=
    fun s => pySplit_join_window text s 200
  set words := pySplit text with hwords
  set n := words.length with hn
  set m := (n + 150 - 1) / 150 with hm
  set W := (List.range m).map (fun j => (words.drop (j * 150)).take 200) with hW
  set K := W.filter (fun w => 20 < w.length) with hK
  have hWlen : W.length = m := by rw [hW]; simp
  have hdiv1 : ∀ j : ℕ, j < m → 150 * j + 1 ≤ n := by
    intro j hj
    have h2 : j + 1 ≤ m := hj
    rw [hm, Nat.le_div_iff_mul_le (by norm_num)] at h2
    omega
  have hdiv2 : ∀ j : ℕ, j + 1 < m → 150 * j + 151 ≤ n := by
    intro j hj
    have h2 : j + 2 ≤ m := hj
    rw [hm, Nat.le_div_iff_mul_le (by norm_num)] at h2
    omega
  have hWget : ∀ (j : ℕ), j < m → W.getD j [] = (words.drop (j * 150)).take 200 := by
    intro j hj
    have hjW : j < W.length := by omega
    have hjr : j < (List.range m).length := by simpa using hj
    have h1 : W.getD j [] = W.get ⟨j, hjW⟩ := List.getD_eq_getElem _ _ hjW
    have h2 : W.get ⟨j, hjW⟩ = (words.drop ((List.range m).get ⟨j, hjr⟩ * 150)).take 200 :=
      List.getElem_map _
    have h3 : (List.range m).get ⟨j, hjr⟩ = j := List.getElem_range _ _
    rw [h1, h2, h3]
  have hWget_len : ∀ (j : ℕ), j < m → (W.getD j []).length = min 200 (n - j * 150) := by
    intro j hj
    rw [hWget j hj]
    simp [List.length_take, List.length_drop, hn]
  have hkeep : ∀ j, j + 1 < W.length → (fun w => decide (20 < w.length)) (W.getD j []) = true := by
    intro j hj
    rw [hWlen] at hj
    have hlen := hWget_len j (by omega)
    have h21 : 150 * j + 151 ≤ n := hdiv2 j hj
    have h20 : 20 < (W.getD j []).length := by rw [hlen]; omega
    simpa using h20
  have hKW := filter_all_but_last (fun w => decide (20 < w.length)) [] W hkeep
  have hKlen : K.length ≤ W.length := by rw [hK]; exact List.length_filter_le _ _
  have hKm : K.length ≤ m := by omega
  have hKget : ∀ (i : ℕ), i < K.length → K.getD i [] = W.getD i [] := by
    intro i hiK
    rcases hKW with he | he
    · rw [hK, he]
    · have he2 : K = W.dropLast := by rw [hK, he]
      rw [he2] at hiK ⊢
      have hiW : i < W.length := by
        rw [List.length_dropLast] at hiK
        omega
      rw [List.getD_eq_getElem _ _ hiK, List.getD_eq_getElem _ _ hiW]
      exact List.getElem_dropLast W i hiK
  constructor
  · intro w hw
    rw [List.mem_map] at hw
    rcases hw with ⟨win, hwin, hww⟩
    have hwinW : win ∈ W := (List.mem_filter.mp hwin).1
    rw [hW, List.mem_map] at hwinW
    rcases hwinW with ⟨s, _, hsw⟩
    rw [← hww, ← hsw]
    rw [hgood (s * 150)]
    simp [List.length_take]
  · intro i hi
    rw [List.length_map] at hi
    have hiK : i < K.length := by omega
    have hi1K : i + 1 < K.length := hi
    have him : i < m := by omega
    have hi1m : i + 1 < m := by omega
    have hgKi : (K.map joinSpace).getD i [] = joinSpace (K.getD i []) := by
      rw [List.getD_eq_getElem _ _ (by rw [List.length_map]; omega),
        List.getElem_map, List.getD_eq_getElem _ _ hiK]
    have hgKi1 : (K.map joinSpace).getD (i + 1) [] = joinSpace (K.getD (i + 1) []) := by
      rw [List.getD_eq_getElem _ _ (by rw [List.length_map]; omega),
        List.getElem_map, List.getD_eq_getElem _ _ hi1K]
    have hKi : K.getD i [] = (words.drop (i * 150)).take 200 := by
      rw [hKget i hiK, hWget i him]
    have hKi1 : K.getD (i + 1) [] = (words.drop ((i + 1) * 150)).take 200 := by
      rw [hKget (i + 1) hi1K, hWget (i + 1) hi1m]
    have hsplit_i : pySplit ((K.map joinSpace).getD i []) = (words.drop (i * 150)).take 200 := by
      rw [hgKi, hKi, hgood]
    have hsplit_i1 :
        pySplit ((K.map joinSpace).getD (i + 1) []) = (words.drop ((i + 1) * 150)).take 200 := by
      rw [hgKi1, hKi1, hgood]
    by_cases hc : 150 * i + 200 ≤ n
    · left
      rw [hsplit_i, hsplit_i1]
      have hlen_i : ((words.drop (i * 150)).take 200).length = 200 := by
        simp [List.length_take, List.length_drop]
        omega
      unfold lastN
      rw [hlen_i, show (200 - 50 : ℕ) = 150 from rfl, List.drop_take, List.drop_drop,
        List.take_take]
      rw [show (200 - 150 : ℕ) = 50 from rfl, show (50 ⊓ 200 : ℕ) = 50 from rfl,
        show i * 150 + 150 = (i + 1) * 150 from by ring]
    · right
      constructor
      · rw [List.length_map]
        by_contra hne2
        have h3 : i + 2 < K.length := by omega
        have h4 : i + 2 < m := by omega
        have h5 := hdiv1 (i + 2) h4
        omega
      · rw [hsplit_i1]
        simp only [List.length_take, List.length_drop]
        omega

set_option maxRecDepth 8000 in
/-- Witness for C3: the empty text chunks to the empty window list, at which
the invariants hold vacuously. -/
theorem C3_witness :
    chunk_text [] 200 50 = Except.ok [] ∧
    ((∀ w ∈ ([] : List Text), (pySplit w).length ≤ 200) ∧
      (∀ i, i + 1 < ([] : List Text).length →
        lastN 50 (pySplit (([] : List Text).getD i [])) =
          (pySplit (([] : List Text).getD (i + 1) [])).take 50 ∨
        (i + 2 = ([] : List Text).length ∧
          (pySplit (([] : List Text).getD (i + 1) [])).length < 50))) :=
  ⟨rfl, C3_overlap_invariant [] [] rfl⟩

end Rag
